import Mathlib

/-!
Shallow embedding of the core simulation of `Asteroidsgame.py`.

Conventions used throughout:
* Python floats are idealised as real numbers (`ℝ`); Python ints are `ℤ`/`ℕ`.
* `pygame.time.get_ticks()` (the millisecond clock) becomes an explicit
  `now : ℤ` argument threaded to every operation that reads the clock.
* Calls to the global random generator become explicit oracle arguments
  (`SplitRnd`, `SpawnRnd`): each field records the value of one family of
  draws.  `random.choice([2,2,3])` is an index into the literal list
  `[2,2,3]`, `random.uniform`/`randint`/`randrange` draws are the supplied
  numbers themselves.
* The unbounded rejection-sampling loop in `Game._spawn_wave` (`while True`)
  is embedded with a finite list of candidate draws; exhausting the list
  (the loop not terminating within the provided draws) yields `none`, so
  spawning operations return `Option`.
* Rendering, audio and the pygame event pump are external collaborators and
  are not part of the core being modelled; `dt` is accepted and ignored by
  every Python `update`, so it is omitted here.
-/

noncomputable section

/-- Game config constant `WIDTH` (960). -/
def WIDTH : ℝ := 960

/-- Game config constant `HEIGHT` (720). -/
def HEIGHT : ℝ := 720

/-- Game config constant `ASTEROID_MIN_RADIUS` (16). -/
def ASTEROID_MIN_RADIUS : ℤ := 16

/-- Game config constant `ASTEROID_MAX_RADIUS` (60). -/
def ASTEROID_MAX_RADIUS : ℤ := 60

/-- Game config constant `ASTEROID_SPLIT_FACTOR` (0.55). -/
def ASTEROID_SPLIT_FACTOR : ℝ := 0.55

/-- Game config constant `ASTEROID_CHILD_VARIANCE` (0.15). -/
def ASTEROID_CHILD_VARIANCE : ℝ := 0.15

/-- Game config constant `ASTEROID_START_COUNT` (5). -/
def ASTEROID_START_COUNT : ℕ := 5

/-- Game config constant `ASTEROID_SPEED_BASE` (1.2). -/
def ASTEROID_SPEED_BASE : ℝ := 1.2

/-- Game config constant `LASER_SPEED` (9.0). -/
def LASER_SPEED : ℝ := 9.0

/-- Game config constant `LASER_COOLDOWN` (180 ms). -/
def LASER_COOLDOWN : ℤ := 180

/-- Game config constant `SHIP_THRUST` (0.18). -/
def SHIP_THRUST : ℝ := 0.18

/-- Game config constant `SHIP_FRICTION` (0.992). -/
def SHIP_FRICTION : ℝ := 0.992

/-- Game config constant `SHIP_MAX_SPEED` (6.0). -/
def SHIP_MAX_SPEED : ℝ := 6.0

/-- Game config constant `INVULN_TIME` (1500 ms). -/
def INVULN_TIME : ℤ := 1500

/-- Game config constant `LIVES` (3). -/
def LIVES : ℤ := 3

/-- Python float modulo `x % m` for positive modulus `m`:
the representative of `x` in `[0, m)`. -/
def pymod (x m : ℝ) : ℝ := x - m * ⌊x / m⌋

/-- `wrap_position(x, y)` — toroidal wrapping: `x % WIDTH, y % HEIGHT`. -/
def wrap_position (x y : ℝ) : ℝ × ℝ := (pymod x WIDTH, pymod y HEIGHT)

/-- `vec_from_angle(angle, magnitude)` =
`(cos(angle) * magnitude, sin(angle) * magnitude)`. -/
def vec_from_angle (angle magnitude : ℝ) : ℝ × ℝ :=
  (Real.cos angle * magnitude, Real.sin angle * magnitude)

/-- Python `int(x)` on a float: truncation toward zero. -/
def pyTrunc (x : ℝ) : ℤ := if 0 ≤ x then ⌊x⌋ else ⌈x⌉

/-- `Laser.__init__`: position, velocity, radius 3, alive flag, ttl 1200 ms,
birth timestamp. -/
structure Laser where
  x : ℝ
  y : ℝ
  vx : ℝ
  vy : ℝ
  radius : ℝ
  alive : Bool
  ttl : ℤ
  birth : ℤ

/-- `Asteroid`: position, velocity, integer radius. -/
structure Asteroid where
  x : ℝ
  y : ℝ
  vx : ℝ
  vy : ℝ
  radius : ℤ

/-- `Ship`: position, velocity, facing angle, radius 12, alive flag,
invulnerable-until timestamp. -/
structure Ship where
  x : ℝ
  y : ℝ
  vx : ℝ
  vy : ℝ
  angle : ℝ
  radius : ℝ
  alive : Bool
  invuln_until : ℤ

/-- The session state owned by `Game.__init__` (screen/clock/font/sound
handles are external collaborators and not modelled). -/
structure Game where
  ship : Ship
  lasers : List Laser
  asteroids : List Asteroid
  score : ℤ
  lives : ℤ
  last_shot : ℤ
  running : Bool
  paused : Bool
  game_over : Bool

/-- Per-tick inputs read by `Game.update`: the four held thrust keys
(W/UP, S/DOWN, A/LEFT, D/RIGHT), the aim direction derived from the mouse
(`atan2(my - ship.y, mx - ship.x)` — embedded as the resulting angle), and
the clock value `pygame.time.get_ticks()`. -/
structure TickInput where
  forward : Bool
  back : Bool
  left : Bool
  right : Bool
  aimAngle : ℝ
  now : ℤ

/-- Random draws consumed by one call of `Asteroid.split`:
`numChoice` indexes `random.choice([2, 2, 3])`; for child `i`, `var i` is
the `random.uniform(-ASTEROID_CHILD_VARIANCE, ASTEROID_CHILD_VARIANCE)`
draw, `ang i` the `random.uniform(0, tau)` draw and `spd i` the
`random.uniform(-0.2, 0.35)` draw. -/
structure SplitRnd where
  numChoice : Fin 3
  var : ℕ → ℝ
  ang : ℕ → ℝ
  spd : ℕ → ℝ

/-- Random draws consumed by `Game._spawn_wave`: for wave slot `i`,
`cands i` is the stream of `randrange(margin, WIDTH-margin)`-pair position
draws fed to the rejection loop (finitely many of them; exhausting the list
models the loop not terminating on the given draws), `rad i` the
`randint(ASTEROID_MAX_RADIUS - 15, ASTEROID_MAX_RADIUS)` draw, and
`ang i`/`jit i` the angle and speed-jitter draws of `Asteroid.__init__`. -/
structure SpawnRnd where
  cands : ℕ → List (ℝ × ℝ)
  rad : ℕ → ℤ
  ang : ℕ → ℝ
  jit : ℕ → ℝ

/-- All randomness consumed by one `Game.update` tick: `split i` serves the
`Asteroid.split` call of the asteroid at iteration index `i` of the
collision phase, `spawn` serves a possible `_spawn_wave` call. -/
structure TickRnd where
  split : ℕ → SplitRnd
  spawn : SpawnRnd

/-- `Laser.update`: integrate position, wrap, and expire when
`now - birth > ttl`. -/
def Laser.update (now : ℤ) (l : Laser) : Laser :=
  let p := wrap_position (l.x + l.vx) (l.y + l.vy)
  { l with x := p.1, y := p.2, alive := if l.ttl < now - l.birth then false else l.alive }

/-- `Asteroid.update`: integrate position and wrap. -/
def Asteroid.update (a : Asteroid) : Asteroid :=
  let p := wrap_position (a.x + a.vx) (a.y + a.vy)
  { a with x := p.1, y := p.2 }

/-- The random-velocity branch of `Asteroid.__init__` (the `vx is None`
path used at wave spawn): speed
`ASTEROID_SPEED_BASE + (ASTEROID_MAX_RADIUS - radius) * 0.02 + uniform(-0.3, 0.3)`
in a uniformly random direction; `ang`/`jit` are those two draws. -/
def Asteroid.make (x y : ℝ) (radius : ℤ) (ang jit : ℝ) : Asteroid :=
  let speed := ASTEROID_SPEED_BASE + ((ASTEROID_MAX_RADIUS - radius : ℤ) : ℝ) * 0.02 + jit
  let v := vec_from_angle ang speed
  { x := x, y := y, vx := v.1, vy := v.2, radius := radius }

/-- `Asteroid.split`: no children at or below the minimum radius; otherwise
`random.choice([2, 2, 3])` children, each at the parent's position with
radius `max(ASTEROID_MIN_RADIUS, int(radius * (ASTEROID_SPLIT_FACTOR + uniform(-VAR, VAR))))`
and velocity `vec_from_angle(uniform(0, tau), (hypot(vx, vy) + 0.5) * (1 + uniform(-0.2, 0.35)))`. -/
def Asteroid.split (a : Asteroid) (r : SplitRnd) : List Asteroid :=
  if a.radius ≤ ASTEROID_MIN_RADIUS then []
  else
    (List.range (([2, 2, 3] : List ℕ).get r.numChoice)).map fun i =>
      { x := a.x, y := a.y,
        vx := (vec_from_angle (r.ang i) ((Real.sqrt (a.vx ^ 2 + a.vy ^ 2) + 0.5) * (1 + r.spd i))).1,
        vy := (vec_from_angle (r.ang i) ((Real.sqrt (a.vx ^ 2 + a.vy ^ 2) + 0.5) * (1 + r.spd i))).2,
        radius := max ASTEROID_MIN_RADIUS (pyTrunc ((a.radius : ℝ) * (ASTEROID_SPLIT_FACTOR + r.var i))) }

/-- `Ship.__init__`: centre of the screen, at rest, angle 0, radius 12,
alive, not invulnerable. -/
def Ship.init : Ship :=
  { x := WIDTH / 2, y := HEIGHT / 2, vx := 0, vy := 0, angle := 0,
    radius := 12, alive := true, invuln_until := 0 }

/-- `Ship.reset`: re-run `__init__` then grant invulnerability until
`now + INVULN_TIME`. -/
def Ship.reset (now : ℤ) : Ship :=
  { Ship.init with invuln_until := now + INVULN_TIME }

/-- `Ship.can_be_hit`: `now >= invuln_until`. -/
def Ship.can_be_hit (now : ℤ) (s : Ship) : Prop := s.invuln_until ≤ now

/-- Thrust-accumulation step of `Ship.update` (lines setting `self.angle`
and the four key-conditional `vx/vy` increments). -/
def shipThrust (inp : TickInput) (s : Ship) : Ship :=
  let angle := inp.aimAngle
  let v0 : ℝ × ℝ := (s.vx, s.vy)
  let v1 := if inp.forward then
    (v0.1 + (vec_from_angle angle SHIP_THRUST).1, v0.2 + (vec_from_angle angle SHIP_THRUST).2) else v0
  let v2 := if inp.back then
    (v1.1 + (vec_from_angle (angle + Real.pi) (SHIP_THRUST * 0.6)).1,
     v1.2 + (vec_from_angle (angle + Real.pi) (SHIP_THRUST * 0.6)).2) else v1
  let v3 := if inp.left then
    (v2.1 + (vec_from_angle (angle - Real.pi / 2) (SHIP_THRUST * 0.6)).1,
     v2.2 + (vec_from_angle (angle - Real.pi / 2) (SHIP_THRUST * 0.6)).2) else v2
  let v4 := if inp.right then
    (v3.1 + (vec_from_angle (angle + Real.pi / 2) (SHIP_THRUST * 0.6)).1,
     v3.2 + (vec_from_angle (angle + Real.pi / 2) (SHIP_THRUST * 0.6)).2) else v3
  { s with angle := angle, vx := v4.1, vy := v4.2 }

/-- Speed-clamp step of `Ship.update`: `speed = hypot(vx, vy)`; when
`speed > SHIP_MAX_SPEED` rescale both components by `SHIP_MAX_SPEED / speed`. -/
def shipClamp (s : Ship) : Ship :=
  let speed := Real.sqrt (s.vx ^ 2 + s.vy ^ 2)
  if SHIP_MAX_SPEED < speed then
    { s with vx := s.vx * (SHIP_MAX_SPEED / speed), vy := s.vy * (SHIP_MAX_SPEED / speed) }
  else s

/-- Friction step of `Ship.update`: multiply velocity by `SHIP_FRICTION`. -/
def shipFriction (s : Ship) : Ship :=
  { s with vx := s.vx * SHIP_FRICTION, vy := s.vy * SHIP_FRICTION }

/-- Integration step of `Ship.update`: add velocity to position and wrap. -/
def shipIntegrate (s : Ship) : Ship :=
  let p := wrap_position (s.x + s.vx) (s.y + s.vy)
  { s with x := p.1, y := p.2 }

/-- `Ship.update`, transcribed line by line: recompute the facing angle
from the aim target, accumulate the four conditional thrust contributions,
clamp the speed, apply friction, integrate and wrap. -/
def Ship.update (inp : TickInput) (s : Ship) : Ship :=
  let angle := inp.aimAngle
  let v0 : ℝ × ℝ := (s.vx, s.vy)
  let v1 := if inp.forward then
    (v0.1 + (vec_from_angle angle SHIP_THRUST).1, v0.2 + (vec_from_angle angle SHIP_THRUST).2) else v0
  let v2 := if inp.back then
    (v1.1 + (vec_from_angle (angle + Real.pi) (SHIP_THRUST * 0.6)).1,
     v1.2 + (vec_from_angle (angle + Real.pi) (SHIP_THRUST * 0.6)).2) else v1
  let v3 := if inp.left then
    (v2.1 + (vec_from_angle (angle - Real.pi / 2) (SHIP_THRUST * 0.6)).1,
     v2.2 + (vec_from_angle (angle - Real.pi / 2) (SHIP_THRUST * 0.6)).2) else v2
  let v4 := if inp.right then
    (v3.1 + (vec_from_angle (angle + Real.pi / 2) (SHIP_THRUST * 0.6)).1,
     v3.2 + (vec_from_angle (angle + Real.pi / 2) (SHIP_THRUST * 0.6)).2) else v3
  let speed := Real.sqrt (v4.1 ^ 2 + v4.2 ^ 2)
  let v5 := if SHIP_MAX_SPEED < speed then
    (v4.1 * (SHIP_MAX_SPEED / speed), v4.2 * (SHIP_MAX_SPEED / speed)) else v4
  let v6 := (v5.1 * SHIP_FRICTION, v5.2 * SHIP_FRICTION)
  let p := wrap_position (s.x + v6.1) (s.y + v6.2)
  { x := p.1, y := p.2, vx := v6.1, vy := v6.2, angle := angle,
    radius := s.radius, alive := s.alive, invuln_until := s.invuln_until }

/-- The laser/asteroid circle-intersection test of `Game.update`:
`(a.x - l.x)**2 + (a.y - l.y)**2 <= (a.radius + l.radius)**2`.
Note it does not read `l.alive`. -/
abbrev collides (a : Asteroid) (l : Laser) : Prop :=
  (a.x - l.x) ^ 2 + (a.y - l.y) ^ 2 ≤ ((a.radius : ℝ) + l.radius) ^ 2

/-- The ship/asteroid circle-intersection test of `Game.update`. -/
abbrev shipCollides (a : Asteroid) (s : Ship) : Prop :=
  (a.x - s.x) ^ 2 + (a.y - s.y) ^ 2 ≤ ((a.radius : ℝ) + s.radius) ^ 2

/-- The geometric data of a laser that the collision test reads
(position and radius; the alive flag is not part of it). -/
def laserGeom (l : Laser) : ℝ × ℝ × ℝ := (l.x, l.y, l.radius)

/-- The inner loop `for l in self.lasers: if collides: l.alive = False; break`
of the laser/asteroid phase: find the first laser whose circle intersects
`a` (its alive flag is not consulted), mark it dead;
`none` when no laser intersects. -/
def killFirstHit (a : Asteroid) : List Laser → Option (List Laser)
  | [] => none
  | l :: rest =>
    if collides a l then some ({ l with alive := false } :: rest)
    else (killFirstHit a rest).map fun rest2 => l :: rest2

/-- The laser/asteroid collision phase of `Game.update` (building
`new_asteroids`): for each asteroid in order, try to consume the first
intersecting laser; a hit asteroid contributes
`max(1, (ASTEROID_MAX_RADIUS - radius) // 5)` score and its `split`
children, a missed asteroid is retained.  `i` is the iteration index used
to address the split-randomness oracle.  Returns
(new asteroid list, laser list with updated alive flags, score delta). -/
def laserPhase (rs : ℕ → SplitRnd) : ℕ → List Laser → List Asteroid → List Asteroid × List Laser × ℤ
  | _, lasers, [] => ([], lasers, 0)
  | i, lasers, a :: rest =>
    match killFirstHit a lasers with
    | some lasers2 =>
      let res := laserPhase rs (i + 1) lasers2 rest
      (a.split (rs i) ++ res.1, res.2.1, res.2.2 + max 1 (Int.fdiv (ASTEROID_MAX_RADIUS - a.radius) 5))
    | none =>
      let res := laserPhase rs (i + 1) lasers rest
      (a :: res.1, res.2.1, res.2.2)

/-- Specification-side description of which asteroids the collision phase
destroys: an asteroid is hit exactly when some laser of the phase-input
list geometrically intersects it (alive-flag mutations during the phase
ignored).  Used to characterise `laserPhase`. -/
def laserPhaseByGeometry (rs : ℕ → SplitRnd) : ℕ → List Laser → List Asteroid → List Asteroid
  | _, _, [] => []
  | i, lasers, a :: rest =>
    if ∃ l ∈ lasers, collides a l then a.split (rs i) ++ laserPhaseByGeometry rs (i + 1) lasers rest
    else a :: laserPhaseByGeometry rs (i + 1) lasers rest

/-- The loop `for a in self.asteroids: if shipCollides: ...; break` of the
ship/asteroid phase: the first asteroid intersecting the ship, if any. -/
def firstShipHit (s : Ship) : List Asteroid → Option Asteroid
  | [] => none
  | a :: rest => if shipCollides a s then some a else firstShipHit s rest

/-- The ship/asteroid collision phase of `Game.update`: only runs when
`can_be_hit`; on the first intersecting asteroid decrement lives, reset the
ship (fresh invulnerability window), stop, and raise `game_over` when lives
have reached zero. -/
def shipPhase (now : ℤ) (g : Game) : Game :=
  if g.ship.invuln_until ≤ now then
    match firstShipHit g.ship g.asteroids with
    | some _ =>
      let lives := g.lives - 1
      { g with lives := lives, ship := Ship.reset now,
               game_over := if lives ≤ 0 then true else g.game_over }
    | none => g
  else g

/-- The rejection loop of `Game._spawn_wave`
(`while True: x, y = randrange...; if hypot(x - ship.x, y - ship.y) > 200: break`):
the first candidate draw farther than 200 from `(sx, sy)`; `none` when the
provided draws are exhausted. -/
def findFar (sx sy : ℝ) : List (ℝ × ℝ) → Option (ℝ × ℝ)
  | [] => none
  | c :: rest =>
    if 200 < Real.sqrt ((c.1 - sx) ^ 2 + (c.2 - sy) ^ 2) then some c
    else findFar sx sy rest

/-- The `for _ in range(count)` loop of `Game._spawn_wave`, spawning one
asteroid per slot at a safe position with a fresh radius/velocity draw.
`i` addresses the randomness oracle. -/
def spawnLoop (ship : Ship) (r : SpawnRnd) : ℕ → ℕ → Option (List Asteroid)
  | _, 0 => some []
  | i, Nat.succ k =>
    match findFar ship.x ship.y (r.cands i) with
    | none => none
    | some c =>
      (spawnLoop ship r (i + 1) k).map fun rest =>
        Asteroid.make c.1 c.2 (r.rad i) (r.ang i) (r.jit i) :: rest

/-- `Game._spawn_wave(count)`: clear the collection and spawn `count`
asteroids away from the ship. -/
def spawnWave (ship : Ship) (r : SpawnRnd) (count : ℕ) : Option (List Asteroid) :=
  spawnLoop ship r 0 count

/-- The wave trigger at the end of `Game.update`: when the collection is
empty and the game is not over, spawn `min(12, 5 + score // 15)` asteroids
(`//` is Python floor division; a non-positive count spawns nothing, as
`range` would). -/
def wavePhase (r : SpawnRnd) (g : Game) : Option Game :=
  if g.asteroids.isEmpty && !g.game_over then
    (spawnWave g.ship r (min 12 (5 + Int.fdiv g.score 15)).toNat).map fun asts =>
      { g with asteroids := asts }
  else some g

/-- `Game.shoot`: rejected silently within the cooldown window; otherwise
record `last_shot = now` and append one laser at the ship's nose
(`ship pos + (cos, sin)(angle) * (radius * 1.8)`) with velocity
`vec_from_angle(angle, LASER_SPEED)`. -/
def Game.shoot (now : ℤ) (g : Game) : Game :=
  if now - g.last_shot < LASER_COOLDOWN then g
  else
    { g with
      last_shot := now,
      lasers := g.lasers ++
        [{ x := g.ship.x + Real.cos g.ship.angle * (g.ship.radius * 1.8),
           y := g.ship.y + Real.sin g.ship.angle * (g.ship.radius * 1.8),
           vx := (vec_from_angle g.ship.angle LASER_SPEED).1,
           vy := (vec_from_angle g.ship.angle LASER_SPEED).2,
           radius := 3, alive := true, ttl := 1200, birth := now }] }

/-- `Game.update`: early-return when over or paused; otherwise update the
ship, move the lasers and drop the non-alive ones, move the asteroids, run
the laser/asteroid phase (score and splits), run the ship/asteroid phase,
and finally the wave trigger.  `none` models the spawn rejection loop
failing to terminate on the supplied draws. -/
def Game.update (inp : TickInput) (r : TickRnd) (g : Game) : Option Game :=
  if g.game_over || g.paused then some g
  else
    let ship := Ship.update inp g.ship
    let lasers := (g.lasers.map (Laser.update inp.now)).filter fun l => l.alive
    let asteroids := g.asteroids.map Asteroid.update
    let res := laserPhase r.split 0 lasers asteroids
    let g1 : Game := { g with ship := ship, lasers := res.2.1, asteroids := res.1,
                              score := g.score + res.2.2 }
    let g2 := shipPhase inp.now g1
    wavePhase r.spawn g2

/-- `Game.__init__` (session-state part): fresh ship, empty collections,
score 0, `LIVES` lives, cooldown clear, flags down, and the starting wave
of `ASTEROID_START_COUNT` asteroids. -/
def gameInit (r : SpawnRnd) : Option Game :=
  (spawnWave Ship.init r ASTEROID_START_COUNT).map fun asts =>
    { ship := Ship.init, lasers := [], asteroids := asts, score := 0,
      lives := LIVES, last_shot := 0, running := true, paused := false, game_over := false }

/-- The restart branch of `Game.handle_events`:
`elif event.key == K_r and self.game_over: self.__init__()` — the R key is
honoured only in the game-over state, where it reconstructs the session. -/
def handleRestart (r : SpawnRnd) (g : Game) : Option Game :=
  if g.game_over then gameInit r else some g

/-- A laser at (100, 100), used as concrete input. -/
def l0 : Laser :=
  { x := 100, y := 100, vx := 0, vy := 0, radius := 3, alive := true, ttl := 1200, birth := 0 }

/-- `l0` with its alive flag cleared. -/
def l0d : Laser :=
  { x := 100, y := 100, vx := 0, vy := 0, radius := 3, alive := false, ttl := 1200, birth := 0 }

/-- A minimum-radius asteroid directly on top of `l0`. -/
def a1ex : Asteroid := { x := 100, y := 100, vx := 0, vy := 0, radius := 16 }

/-- A second minimum-radius asteroid, also on top of `l0`. -/
def a2ex : Asteroid := { x := 100, y := 100, vx := 0, vy := 0, radius := 16 }

/-- A trivial split-randomness oracle. -/
def sr0 : SplitRnd := { numChoice := 0, var := fun _ => 0, ang := fun _ => 0, spd := fun _ => 0 }

/-- A constant family of trivial split-randomness oracles. -/
def rsplit0 : ℕ → SplitRnd := fun _ => sr0

/-- A spawn-randomness oracle: every position draw is (80, 80), every
radius draw 50, angle and jitter draws 0. -/
def r0 : SpawnRnd :=
  { cands := fun _ => [(80, 80)], rad := fun _ => 50, ang := fun _ => 0, jit := fun _ => 0 }

/-- The asteroid `Asteroid.make 80 80 50 0 0` produces: speed
`1.2 + 10 * 0.02 = 1.4` heading along angle 0. -/
def aW : Asteroid := { x := 80, y := 80, vx := 1.4, vy := 0, radius := 50 }

/-- A playing-state session with no asteroids and no lasers. -/
def gW : Game :=
  { ship := Ship.init, lasers := [], asteroids := [], score := 0, lives := 3,
    last_shot := 0, running := true, paused := false, game_over := false }

/-- `gW` with the paused flag raised. -/
def gP : Game :=
  { ship := Ship.init, lasers := [], asteroids := [], score := 0, lives := 3,
    last_shot := 0, running := true, paused := true, game_over := false }

/-- An asteroid sitting on the ship spawn point. -/
def aC2 : Asteroid := { x := 480, y := 360, vx := 0, vy := 0, radius := 16 }

/-- A vulnerable session with one asteroid overlapping the ship. -/
def gC2 : Game :=
  { ship := Ship.init, lasers := [], asteroids := [aC2], score := 0, lives := 3,
    last_shot := 0, running := true, paused := false, game_over := false }

/-- A tick input with no keys held. -/
def inp0 : TickInput :=
  { forward := false, back := false, left := false, right := false, aimAngle := 0, now := 0 }

/-- A full randomness oracle for one tick. -/
def tr0 : TickRnd := { split := rsplit0, spawn := r0 }

/-- A radius-52 asteroid for the split counterexample. -/
def a52 : Asteroid := { x := 10, y := 20, vx := 0, vy := 0, radius := 52 }

/-- Split randomness drawing the extreme variance `-0.15` for every child. -/
def rC4 : SplitRnd := { numChoice := 0, var := fun _ => -0.15, ang := fun _ => 0, spd := fun _ => 0 }

/-- `gW` with the game-over flag raised. -/
def gO : Game :=
  { ship := Ship.init, lasers := [], asteroids := [], score := 0, lives := 3,
    last_shot := 0, running := true, paused := false, game_over := true }

/-- The session `gameInit r0` produces. -/
def gInit0 : Game :=
  { ship := Ship.init, lasers := [], asteroids := List.replicate 5 aW, score := 0,
    lives := 3, last_shot := 0, running := true, paused := false, game_over := false }

end

theorem pymod_mem (x m : ℝ) (hm : 0 < m) : 0 ≤ pymod x m ∧ pymod x m < m := by
  have hne : m ≠ 0 := ne_of_gt hm
  have hfr : pymod x m = m * Int.fract (x / m) := by
    rw [pymod, Int.fract]
    field_simp
  constructor
  · rw [hfr]
    exact mul_nonneg hm.le (Int.fract_nonneg _)
  · rw [hfr]
    calc m * Int.fract (x / m) < m * 1 := (mul_lt_mul_left hm).mpr (Int.fract_lt_one _)
      _ = m := mul_one m

theorem wrap_position_mem (x y : ℝ) :
    0 ≤ (wrap_position x y).1 ∧ (wrap_position x y).1 < WIDTH ∧
    0 ≤ (wrap_position x y).2 ∧ (wrap_position x y).2 < HEIGHT := by
  have h1 := pymod_mem x WIDTH (by norm_num [WIDTH])
  have h2 := pymod_mem y HEIGHT (by norm_num [HEIGHT])
  exact ⟨h1.1, h1.2, h2.1, h2.2⟩

theorem ship_update_decomp (inp : TickInput) (s : Ship) :
    Ship.update inp s = shipIntegrate (shipFriction (shipClamp (shipThrust inp s))) := by
  cases hf : inp.forward <;> cases hb : inp.back <;> cases hl : inp.left <;> cases hr : inp.right <;>
    simp [Ship.update, shipThrust, shipClamp, shipFriction, shipIntegrate, hf, hb, hl, hr] <;>
    split_ifs <;> simp

theorem shipClamp_speed_le (s : Ship) :
    Real.sqrt ((shipClamp s).vx ^ 2 + (shipClamp s).vy ^ 2) ≤ SHIP_MAX_SPEED := by
  have hM : (0:ℝ) < SHIP_MAX_SPEED := by norm_num [SHIP_MAX_SPEED]
  simp only [shipClamp]
  split_ifs with h
  · have htpos : 0 < Real.sqrt (s.vx ^ 2 + s.vy ^ 2) := hM.trans h
    have ht2 : Real.sqrt (s.vx ^ 2 + s.vy ^ 2) ^ 2 = s.vx ^ 2 + s.vy ^ 2 :=
      Real.sq_sqrt (by positivity)
    show Real.sqrt ((s.vx * (SHIP_MAX_SPEED / Real.sqrt (s.vx ^ 2 + s.vy ^ 2))) ^ 2 +
        (s.vy * (SHIP_MAX_SPEED / Real.sqrt (s.vx ^ 2 + s.vy ^ 2))) ^ 2) ≤ SHIP_MAX_SPEED
    have key : (s.vx * (SHIP_MAX_SPEED / Real.sqrt (s.vx ^ 2 + s.vy ^ 2))) ^ 2 +
        (s.vy * (SHIP_MAX_SPEED / Real.sqrt (s.vx ^ 2 + s.vy ^ 2))) ^ 2 = SHIP_MAX_SPEED ^ 2 := by
      have expand : (s.vx * (SHIP_MAX_SPEED / Real.sqrt (s.vx ^ 2 + s.vy ^ 2))) ^ 2 +
          (s.vy * (SHIP_MAX_SPEED / Real.sqrt (s.vx ^ 2 + s.vy ^ 2))) ^ 2 =
          (s.vx ^ 2 + s.vy ^ 2) * SHIP_MAX_SPEED ^ 2 / Real.sqrt (s.vx ^ 2 + s.vy ^ 2) ^ 2 := by
        ring
      have hsum_pos : 0 < s.vx ^ 2 + s.vy ^ 2 := ht2 ▸ pow_pos htpos 2
      rw [expand, ht2, mul_comm, mul_div_assoc, div_self (ne_of_gt hsum_pos), mul_one]
    rw [key, Real.sqrt_sq hM.le]
  · show Real.sqrt (s.vx ^ 2 + s.vy ^ 2) ≤ SHIP_MAX_SPEED
    exact le_of_not_lt h

/-- C6: the per-tick ship update is exactly the pipeline
thrust-accumulation, then speed clamp, then friction, then
integrate-and-wrap, and immediately after the clamp (before friction) the
speed `sqrt(vx² + vy²)` is at most `SHIP_MAX_SPEED`. -/
theorem ship_update_order_clamp (inp : TickInput) (s : Ship) :
    Ship.update inp s = shipIntegrate (shipFriction (shipClamp (shipThrust inp s))) ∧
    Real.sqrt ((shipClamp (shipThrust inp s)).vx ^ 2 + (shipClamp (shipThrust inp s)).vy ^ 2) ≤
      SHIP_MAX_SPEED :=
  ⟨ship_update_decomp inp s, shipClamp_speed_le _⟩

/-- C8: after any per-tick position update, every entity's wrapped position
satisfies `0 ≤ x < WIDTH` and `0 ≤ y < HEIGHT` — for lasers, asteroids and
the ship alike. -/
theorem entity_wrap_invariant (now : ℤ) (l : Laser) (a : Asteroid) (inp : TickInput) (s : Ship) :
    (0 ≤ (Laser.update now l).x ∧ (Laser.update now l).x < WIDTH ∧
     0 ≤ (Laser.update now l).y ∧ (Laser.update now l).y < HEIGHT) ∧
    (0 ≤ a.update.x ∧ a.update.x < WIDTH ∧ 0 ≤ a.update.y ∧ a.update.y < HEIGHT) ∧
    (0 ≤ (Ship.update inp s).x ∧ (Ship.update inp s).x < WIDTH ∧
     0 ≤ (Ship.update inp s).y ∧ (Ship.update inp s).y < HEIGHT) := by
  refine ⟨?_, ?_, ?_⟩
  · exact wrap_position_mem (l.x + l.vx) (l.y + l.vy)
  · exact wrap_position_mem (a.x + a.vx) (a.y + a.vy)
  · exact wrap_position_mem _ _

theorem killFirstHit_none_iff (a : Asteroid) :
    ∀ L : List Laser, killFirstHit a L = none ↔ ∀ l ∈ L, ¬ collides a l := by
  intro L
  induction L with
  | nil => simp [killFirstHit]
  | cons l rest ih =>
    by_cases h : collides a l
    · simp only [killFirstHit, if_pos h]
      constructor
      · intro hc; exact absurd hc (by simp)
      · intro hall; exact absurd h (hall l (List.mem_cons_self l rest))
    · simp only [killFirstHit, if_neg h, Option.map_eq_none']
      rw [ih]
      constructor
      · intro hrest l2 hl2
        rcases List.mem_cons.mp hl2 with rfl | hm
        · exact h
        · exact hrest l2 hm
      · intro hall l2 hl2
        exact hall l2 (List.mem_cons_of_mem _ hl2)

theorem killFirstHit_geom (a : Asteroid) :
    ∀ L L2 : List Laser, killFirstHit a L = some L2 → L2.map laserGeom = L.map laserGeom := by
  intro L
  induction L with
  | nil => intro L2 h; simp [killFirstHit] at h
  | cons l rest ih =>
    intro L2 h
    by_cases hc : collides a l
    · simp only [killFirstHit, if_pos hc, Option.some_inj] at h
      subst h
      simp [laserGeom]
    · simp only [killFirstHit, if_neg hc, Option.map_eq_some'] at h
      obtain ⟨rest2, hr, rfl⟩ := h
      simp [laserGeom, ih rest2 hr]

theorem collides_congr (a : Asteroid) (l l2 : Laser) (h : laserGeom l = laserGeom l2) :
    collides a l ↔ collides a l2 := by
  simp only [laserGeom, Prod.mk.injEq] at h
  simp only [collides, h.1, h.2.1, h.2.2]

theorem hitsAny_congr (a : Asteroid) :
    ∀ L L2 : List Laser, L.map laserGeom = L2.map laserGeom →
      ((∃ l ∈ L, collides a l) ↔ (∃ l ∈ L2, collides a l)) := by
  intro L
  induction L with
  | nil =>
    intro L2 h
    cases L2 with
    | nil => simp
    | cons => simp at h
  | cons l rest ih =>
    intro L2 h
    cases L2 with
    | nil => simp at h
    | cons l2 rest2 =>
      simp only [List.map_cons, List.cons.injEq] at h
      constructor
      · rintro ⟨x, hx, hcx⟩
        rcases List.mem_cons.mp hx with rfl | hm
        · exact ⟨l2, List.mem_cons_self _ _, (collides_congr a x l2 h.1).mp hcx⟩
        · obtain ⟨y, hy, hcy⟩ := (ih rest2 h.2).mp ⟨x, hm, hcx⟩
          exact ⟨y, List.mem_cons_of_mem _ hy, hcy⟩
      · rintro ⟨x, hx, hcx⟩
        rcases List.mem_cons.mp hx with rfl | hm
        · exact ⟨l, List.mem_cons_self _ _, (collides_congr a l x h.1).mpr hcx⟩
        · obtain ⟨y, hy, hcy⟩ := (ih rest2 h.2).mpr ⟨x, hm, hcx⟩
          exact ⟨y, List.mem_cons_of_mem _ hy, hcy⟩

theorem laserPhaseByGeometry_congr (rs : ℕ → SplitRnd) :
    ∀ (asts : List Asteroid) (i : ℕ) (L L2 : List Laser),
      L.map laserGeom = L2.map laserGeom →
      laserPhaseByGeometry rs i L asts = laserPhaseByGeometry rs i L2 asts := by
  intro asts
  induction asts with
  | nil => intro i L L2 _; rfl
  | cons a rest ih =>
    intro i L L2 h
    have hc := hitsAny_congr a L L2 h
    by_cases hx : ∃ l ∈ L, collides a l
    · simp only [laserPhaseByGeometry, if_pos hx, if_pos (hc.mp hx)]
      rw [ih (i + 1) L L2 h]
    · simp only [laserPhaseByGeometry, if_neg hx, if_neg (fun hx2 => hx (hc.mpr hx2))]
      rw [ih (i + 1) L L2 h]

/-- C1 (amended): in the projectile–asteroid collision phase the hit
decision for every asteroid depends only on the geometry of the projectile
list the phase received (the list already filtered to projectiles alive at
phase start): the phase output equals the purely geometric description
`laserPhaseByGeometry`, in which an asteroid is destroyed exactly when some
projectile of the phase-input list intersects it.  In particular each
asteroid is hit at most once, but the in-phase `alive = False` marking is
never re-checked, so one projectile may destroy several asteroids in the
same tick. -/
theorem laserPhase_geometric_characterization (rs : ℕ → SplitRnd) :
    ∀ (asts : List Asteroid) (i : ℕ) (L : List Laser),
      (laserPhase rs i L asts).1 = laserPhaseByGeometry rs i L asts := by
  intro asts
  induction asts with
  | nil => intro i L; rfl
  | cons a rest ih =>
    intro i L
    cases hk : killFirstHit a L with
    | none =>
      have hno : ∀ l ∈ L, ¬ collides a l := (killFirstHit_none_iff a L).mp hk
      have hnx : ¬ ∃ l ∈ L, collides a l := by
        rintro ⟨l, hl, hcl⟩; exact hno l hl hcl
      simp only [laserPhase, laserPhaseByGeometry, hk, if_neg hnx]
      rw [ih]
    | some L2 =>
      have hx : ∃ l ∈ L, collides a l := by
        by_contra hnx
        have : killFirstHit a L = none := (killFirstHit_none_iff a L).mpr (by
          intro l hl hcl; exact hnx ⟨l, hl, hcl⟩)
        rw [this] at hk; exact Option.noConfusion hk
      simp only [laserPhase, laserPhaseByGeometry, hk, if_pos hx]
      rw [ih (i + 1) L2, laserPhaseByGeometry_congr rs rest (i + 1) L2 L
        (killFirstHit_geom a L L2 hk)]

/-- C1 counterexample: with a single projectile overlapping two
minimum-radius asteroids, the collision phase destroys both of them (the
asteroid list empties and the score rises by two awards of 8), and the
projectile that was already marked dead still registers a hit — refuting
"once a projectile has been marked dead it cannot cause any further
asteroid to be counted as hit" and "each projectile destroys at most one
asteroid per tick". -/
theorem laser_double_kill_cex :
    (laserPhase rsplit0 0 [l0] [a1ex, a2ex]).1 = [] ∧
    (laserPhase rsplit0 0 [l0] [a1ex, a2ex]).2.2 = 16 ∧
    (killFirstHit a2ex [l0d]).isSome = true := by
  have hfd : Int.fdiv 44 5 = 8 := by decide
  norm_num [laserPhase, killFirstHit, l0, l0d, a1ex, a2ex, rsplit0, sr0, Asteroid.split,
    ASTEROID_MIN_RADIUS, ASTEROID_MAX_RADIUS, collides, hfd]

theorem firstShipHit_isSome (s : Ship) :
    ∀ asts : List Asteroid, (∃ a ∈ asts, shipCollides a s) ↔ (firstShipHit s asts).isSome = true := by
  intro asts
  induction asts with
  | nil => simp [firstShipHit]
  | cons a rest ih =>
    by_cases h : shipCollides a s
    · simp [firstShipHit, h]
    · simp only [firstShipHit, if_neg h]
      rw [← ih]
      constructor
      · rintro ⟨x, hx, hcx⟩
        rcases List.mem_cons.mp hx with rfl | hm
        · exact absurd hcx h
        · exact ⟨x, hm, hcx⟩
      · rintro ⟨x, hx, hcx⟩
        exact ⟨x, List.mem_cons_of_mem _ hx, hcx⟩

/-- C2: the ship/asteroid phase runs only when `now ≥ invuln_until`; when
some asteroid overlaps the ship it decrements lives by exactly one (no
matter how many asteroids overlap), resets the ship to the spawn state with
a fresh invulnerability window ending at `now + INVULN_TIME`, and raises
`game_over` exactly when the decremented lives have reached zero; with no
overlap, or while invulnerable, the state is unchanged. -/
theorem ship_collision_phase_spec (now : ℤ) (g : Game) :
    (now < g.ship.invuln_until → shipPhase now g = g) ∧
    (g.ship.invuln_until ≤ now → (∃ a ∈ g.asteroids, shipCollides a g.ship) →
      shipPhase now g =
        { g with lives := g.lives - 1,
                 ship := { Ship.init with invuln_until := now + INVULN_TIME },
                 game_over := if g.lives - 1 ≤ 0 then true else g.game_over } ∧
      ((shipPhase now g).game_over = true ↔ (g.lives - 1 ≤ 0 ∨ g.game_over = true)) ∧
      (shipPhase now g).ship.invuln_until = now + INVULN_TIME) ∧
    (g.ship.invuln_until ≤ now → (∀ a ∈ g.asteroids, ¬ shipCollides a g.ship) →
      shipPhase now g = g) := by
  refine ⟨?_, ?_, ?_⟩
  · intro h
    simp [shipPhase, not_le.mpr h]
  · intro hinv hex
    have hsome : (firstShipHit g.ship g.asteroids).isSome = true :=
      (firstShipHit_isSome g.ship g.asteroids).mp hex
    obtain ⟨a, ha⟩ := Option.isSome_iff_exists.mp hsome
    have heq : shipPhase now g =
        { g with lives := g.lives - 1,
                 ship := { Ship.init with invuln_until := now + INVULN_TIME },
                 game_over := if g.lives - 1 ≤ 0 then true else g.game_over } := by
      simp only [shipPhase, if_pos hinv, ha, Ship.reset]
    refine ⟨heq, ?_, ?_⟩
    · rw [heq]
      split_ifs with h2 <;> simp [h2]
    · rw [heq]
  · intro hinv hall
    have hnone : firstShipHit g.ship g.asteroids = none := by
      rw [← Option.not_isSome_iff_eq_none, ← firstShipHit_isSome]
      rintro ⟨x, hx, hcx⟩
      exact hall x hx hcx
    simp only [shipPhase, if_pos hinv, hnone]

/-- C2 witness: the phase applied to a vulnerable session whose single
asteroid sits on the ship. -/
theorem ship_collision_phase_spec_witness :
    gC2.ship.invuln_until ≤ 1000 ∧ (∃ a ∈ gC2.asteroids, shipCollides a gC2.ship) ∧
    (shipPhase 1000 gC2 =
      { gC2 with lives := gC2.lives - 1,
                 ship := { Ship.init with invuln_until := 1000 + INVULN_TIME },
                 game_over := if gC2.lives - 1 ≤ 0 then true else gC2.game_over } ∧
      ((shipPhase 1000 gC2).game_over = true ↔ (gC2.lives - 1 ≤ 0 ∨ gC2.game_over = true)) ∧
      (shipPhase 1000 gC2).ship.invuln_until = 1000 + INVULN_TIME) := by
  have h1 : gC2.ship.invuln_until ≤ 1000 := by norm_num [gC2, Ship.init]
  have h2 : ∃ a ∈ gC2.asteroids, shipCollides a gC2.ship := by
    refine ⟨aC2, by simp [gC2], ?_⟩
    norm_num [aC2, gC2, Ship.init, shipCollides, WIDTH, HEIGHT]
  exact ⟨h1, h2, (ship_collision_phase_spec 1000 gC2).2.1 h1 h2⟩

theorem findFar_far (sx sy : ℝ) :
    ∀ (cs : List (ℝ × ℝ)) (c : ℝ × ℝ), findFar sx sy cs = some c →
      200 < Real.sqrt ((c.1 - sx) ^ 2 + (c.2 - sy) ^ 2) := by
  intro cs
  induction cs with
  | nil => intro c h; simp [findFar] at h
  | cons d rest ih =>
    intro c h
    by_cases hd : 200 < Real.sqrt ((d.1 - sx) ^ 2 + (d.2 - sy) ^ 2)
    · simp only [findFar, if_pos hd, Option.some_inj] at h
      subst h
      exact hd
    · simp only [findFar, if_neg hd] at h
      exact ih c h

theorem spawnLoop_spec (ship : Ship) (r : SpawnRnd) :
    ∀ (n i : ℕ) (asts : List Asteroid), spawnLoop ship r i n = some asts →
      asts.length = n ∧
      ∀ a ∈ asts, 200 < Real.sqrt ((a.x - ship.x) ^ 2 + (a.y - ship.y) ^ 2) := by
  intro n
  induction n with
  | zero =>
    intro i asts h
    simp only [spawnLoop, Option.some_inj] at h
    subst h
    simp
  | succ k ih =>
    intro i asts h
    simp only [spawnLoop] at h
    cases hf : findFar ship.x ship.y (r.cands i) with
    | none => rw [hf] at h; exact absurd h (by simp)
    | some c =>
      rw [hf] at h
      simp only [Option.map_eq_some'] at h
      obtain ⟨rest, hrest, rfl⟩ := h
      obtain ⟨hlen, hfar⟩ := ih (i + 1) rest hrest
      constructor
      · simp [hlen]
      · intro a ha
        rcases List.mem_cons.mp ha with rfl | hm
        · have := findFar_far ship.x ship.y (r.cands i) c hf
          simpa [Asteroid.make] using this
        · exact hfar a hm

/-- C3: whenever, after collision resolution, the asteroid collection is
empty and the game is not over, the wave trigger spawns exactly one wave of
`min(12, 5 + score // 15)` asteroids, every one farther than the safe
distance 200 from the ship's current position; in every other situation
the trigger leaves the state untouched. -/
theorem wave_spawn_spec (r : SpawnRnd) (g : Game) :
    (g.asteroids = [] → g.game_over = false → 0 ≤ g.score →
      ∀ g2, wavePhase r g = some g2 →
        g2.ship = g.ship ∧
        (g2.asteroids.length : ℤ) = min 12 (5 + Int.fdiv g.score 15) ∧
        ∀ a ∈ g2.asteroids,
          200 < Real.sqrt ((a.x - g2.ship.x) ^ 2 + (a.y - g2.ship.y) ^ 2)) ∧
    ((g.asteroids ≠ [] ∨ g.game_over = true) → wavePhase r g = some g) := by
  constructor
  · intro hemp hov hsc g2 hw
    have hcond : (g.asteroids.isEmpty && !g.game_over) = true := by
      simp [hemp, hov]
    simp only [wavePhase, hcond, if_true, spawnWave, Option.map_eq_some'] at hw
    obtain ⟨asts, hasts, rfl⟩ := hw
    obtain ⟨hlen, hfar⟩ := spawnLoop_spec g.ship r _ 0 asts hasts
    refine ⟨rfl, ?_, ?_⟩
    · show ((asts.length : ℤ)) = min 12 (5 + Int.fdiv g.score 15)
      rw [hlen]
      have hnn : 0 ≤ min 12 (5 + Int.fdiv g.score 15) := by
        have := Int.fdiv_nonneg hsc (by norm_num : (0:ℤ) ≤ 15)
        omega
      exact Int.toNat_of_nonneg hnn
    · intro a ha
      exact hfar a ha
  · intro h
    have hcond : (g.asteroids.isEmpty && !g.game_over) = false := by
      rcases h with h | h
      · simp [List.isEmpty_iff, h]
      · simp [h]
    simp [wavePhase, hcond]

theorem findFar_single (sx sy cx cy : ℝ) (h : 200 ^ 2 < (cx - sx) ^ 2 + (cy - sy) ^ 2) :
    findFar sx sy [(cx, cy)] = some (cx, cy) := by
  have hlt : 200 < Real.sqrt ((cx - sx) ^ 2 + (cy - sy) ^ 2) := by
    rw [show (200:ℝ) = Real.sqrt (200 ^ 2) from (Real.sqrt_sq (by norm_num : (0:ℝ) ≤ 200)).symm]
    exact Real.sqrt_lt_sqrt (by positivity) h
  simp [findFar, hlt]

theorem asteroid_make_eval : Asteroid.make 80 80 50 0 0 = aW := by
  simp only [Asteroid.make, vec_from_angle, Real.cos_zero, Real.sin_zero, aW,
    ASTEROID_SPEED_BASE, ASTEROID_MAX_RADIUS]
  norm_num

theorem spawnLoop_r0 : ∀ n i : ℕ, spawnLoop Ship.init r0 i n = some (List.replicate n aW) := by
  intro n
  induction n with
  | zero => intro i; simp [spawnLoop]
  | succ k ih =>
    intro i
    have hff : findFar Ship.init.x Ship.init.y (r0.cands i) = some (80, 80) := by
      rw [show Ship.init.x = 480 by norm_num [Ship.init, WIDTH],
          show Ship.init.y = 360 by norm_num [Ship.init, HEIGHT],
          show r0.cands i = [(80, 80)] from rfl]
      exact findFar_single 480 360 80 80 (by norm_num)
    simp only [spawnLoop, hff, ih, Option.map_some', List.replicate_succ]
    simp [r0, asteroid_make_eval]

theorem wavePhase_eval : wavePhase r0 gW = some { gW with asteroids := List.replicate 5 aW } := by
  have h5 : (min 12 (5 + Int.fdiv (0:ℤ) 15)).toNat = 5 := by decide
  have hsc : gW.score = 0 := rfl
  simp only [wavePhase, spawnWave, hsc, h5, show gW.ship = Ship.init from rfl, spawnLoop_r0,
    Option.map_some', show gW.asteroids = [] from rfl, show gW.game_over = false from rfl,
    List.isEmpty_nil, Bool.not_false, Bool.and_self, if_true]

/-- C3 witness: the wave trigger fired on an empty collection with score 0
spawns 5 asteroids, all far from the ship. -/
theorem wave_spawn_spec_witness :
    gW.asteroids = [] ∧ gW.game_over = false ∧ 0 ≤ gW.score ∧
    (({ gW with asteroids := List.replicate 5 aW } : Game).ship = gW.ship ∧
     ((({ gW with asteroids := List.replicate 5 aW } : Game).asteroids.length : ℤ)) =
        min 12 (5 + Int.fdiv gW.score 15) ∧
     ∀ a ∈ ({ gW with asteroids := List.replicate 5 aW } : Game).asteroids,
       200 < Real.sqrt ((a.x - ({ gW with asteroids := List.replicate 5 aW } : Game).ship.x) ^ 2 +
         (a.y - ({ gW with asteroids := List.replicate 5 aW } : Game).ship.y) ^ 2)) := by
  have h0 : (0:ℤ) ≤ gW.score := by norm_num [gW]
  exact ⟨rfl, rfl, h0, (wave_spawn_spec r0 gW).1 rfl rfl h0 _ wavePhase_eval⟩

/-- C4 (amended): splitting an asteroid whose radius is at or below
`ASTEROID_MIN_RADIUS` yields no children; otherwise the child count is the
`random.choice([2, 2, 3])` draw (so 2 or 3, with 2 twice as likely), and
every child sits at the parent's position with radius
`max(ASTEROID_MIN_RADIUS, int(parent_radius * (ASTEROID_SPLIT_FACTOR + u)))`
for its variance draw `u` — the product is truncated to an integer before
the max — hence every child radius is at least `ASTEROID_MIN_RADIUS`. -/
theorem split_spec (a : Asteroid) (r : SplitRnd) :
    (a.radius ≤ ASTEROID_MIN_RADIUS → a.split r = []) ∧
    (ASTEROID_MIN_RADIUS < a.radius →
      (a.split r).length = ([2, 2, 3] : List ℕ).get r.numChoice ∧
      ((a.split r).length = 2 ∨ (a.split r).length = 3) ∧
      ∀ c ∈ a.split r, c.x = a.x ∧ c.y = a.y ∧ ASTEROID_MIN_RADIUS ≤ c.radius ∧
        ∃ i, c.radius =
          max ASTEROID_MIN_RADIUS (pyTrunc ((a.radius : ℝ) * (ASTEROID_SPLIT_FACTOR + r.var i)))) := by
  constructor
  · intro h
    simp [Asteroid.split, h]
  · intro h
    have hns : ¬ a.radius ≤ ASTEROID_MIN_RADIUS := not_le.mpr h
    have hlen : (a.split r).length = ([2, 2, 3] : List ℕ).get r.numChoice := by
      simp [Asteroid.split, hns]
    refine ⟨hlen, ?_, ?_⟩
    · rw [hlen]
      obtain ⟨v, hv⟩ := r.numChoice
      have hv3 : v < 3 := hv
      interval_cases v
      · exact Or.inl rfl
      · exact Or.inl rfl
      · exact Or.inr rfl
    · intro c hc
      simp only [Asteroid.split, if_neg hns, List.mem_map, List.mem_range] at hc
      obtain ⟨i, _, rfl⟩ := hc
      exact ⟨rfl, rfl, le_max_left _ _, ⟨i, rfl⟩⟩

/-- C4 witness: the amended split law applied to a radius-52 parent. -/
theorem split_spec_witness :
    ASTEROID_MIN_RADIUS < a52.radius ∧
    ((a52.split rC4).length = ([2, 2, 3] : List ℕ).get rC4.numChoice ∧
     ((a52.split rC4).length = 2 ∨ (a52.split rC4).length = 3) ∧
     ∀ c ∈ a52.split rC4, c.x = a52.x ∧ c.y = a52.y ∧ ASTEROID_MIN_RADIUS ≤ c.radius ∧
       ∃ i, c.radius =
         max ASTEROID_MIN_RADIUS (pyTrunc ((a52.radius : ℝ) * (ASTEROID_SPLIT_FACTOR + rC4.var i)))) := by
  have h : ASTEROID_MIN_RADIUS < a52.radius := by norm_num [ASTEROID_MIN_RADIUS, a52]
  exact ⟨h, (split_spec a52 rC4).2 h⟩

/-- C4 counterexample: splitting the radius-52 parent with both variance
draws at the extreme -0.15 produces children of radius 20 (the code
truncates `52 * 0.4 = 20.8` to the integer 20 before taking the max), while
the claim's formula `max(ASTEROID_MIN_RADIUS, 52 * (0.55 + u))` is at least
20.8 for every admissible variance `u`, so no admissible draw matches the
produced radius. -/
theorem split_truncation_cex :
    (a52.split rC4).map Asteroid.radius = [20, 20] ∧
    ∀ u : ℝ, -ASTEROID_CHILD_VARIANCE ≤ u → u ≤ ASTEROID_CHILD_VARIANCE →
      ((20:ℝ)) ≠ max ((ASTEROID_MIN_RADIUS : ℤ) : ℝ) ((52:ℝ) * (ASTEROID_SPLIT_FACTOR + u)) := by
  constructor
  · have h52 : ((52:ℝ)) * (ASTEROID_SPLIT_FACTOR + -(3 / 20)) = 20.8 := by
      norm_num [ASTEROID_SPLIT_FACTOR]
    have hfl : ⌊(20.8:ℝ)⌋ = 20 := by
      rw [Int.floor_eq_iff]
      norm_num
    have htr : pyTrunc ((52:ℝ) * (ASTEROID_SPLIT_FACTOR + -(3 / 20))) = 20 := by
      rw [pyTrunc, if_pos (by rw [h52]; norm_num), h52, hfl]
    norm_num [Asteroid.split, a52, rC4, ASTEROID_MIN_RADIUS, List.range_succ]
    rw [htr]
    decide
  · intro u h1 h2 heq
    rw [ASTEROID_CHILD_VARIANCE] at h1
    have hge : (20.8:ℝ) ≤ (52:ℝ) * (ASTEROID_SPLIT_FACTOR + u) := by
      rw [ASTEROID_SPLIT_FACTOR]
      nlinarith
    have hle : (20.8:ℝ) ≤ max (((ASTEROID_MIN_RADIUS:ℤ)):ℝ) ((52:ℝ) * (ASTEROID_SPLIT_FACTOR + u)) :=
      le_trans hge (le_max_right _ _)
    rw [← heq] at hle
    norm_num at hle

/-- C5: a fire request is accepted exactly when
`now - last_shot ≥ LASER_COOLDOWN`; acceptance appends exactly one laser at
the ship's nose (position offset by `radius * 1.8` along the facing angle)
with velocity the facing direction scaled to `LASER_SPEED`, and records
`last_shot = now`; rejection leaves the state unchanged; two requests
within the cooldown window produce exactly one laser. -/
theorem shoot_cooldown_spec (g : Game) (now now1 now2 : ℤ) :
    (now - g.last_shot < LASER_COOLDOWN → Game.shoot now g = g) ∧
    (LASER_COOLDOWN ≤ now - g.last_shot →
      Game.shoot now g =
        { g with last_shot := now,
                 lasers := g.lasers ++
                   [{ x := g.ship.x + Real.cos g.ship.angle * (g.ship.radius * 1.8),
                      y := g.ship.y + Real.sin g.ship.angle * (g.ship.radius * 1.8),
                      vx := Real.cos g.ship.angle * LASER_SPEED,
                      vy := Real.sin g.ship.angle * LASER_SPEED,
                      radius := 3, alive := true, ttl := 1200, birth := now }] } ∧
      (Game.shoot now g).lasers.length = g.lasers.length + 1) ∧
    (LASER_COOLDOWN ≤ now1 - g.last_shot → now2 - now1 < LASER_COOLDOWN →
      (Game.shoot now2 (Game.shoot now1 g)).lasers.length = g.lasers.length + 1) := by
  have hrej : ∀ (t : ℤ) (g2 : Game), t - g2.last_shot < LASER_COOLDOWN → Game.shoot t g2 = g2 := by
    intro t g2 h
    simp [Game.shoot, h]
  refine ⟨hrej now g, ?_, ?_⟩
  · intro h
    have hn : ¬ (now - g.last_shot < LASER_COOLDOWN) := not_lt.mpr h
    constructor
    · simp [Game.shoot, hn, vec_from_angle]
    · simp [Game.shoot, hn]
  · intro h1 h2
    have hn1 : ¬ (now1 - g.last_shot < LASER_COOLDOWN) := not_lt.mpr h1
    have heq1 : (Game.shoot now1 g).last_shot = now1 := by simp [Game.shoot, hn1]
    have hlen1 : (Game.shoot now1 g).lasers.length = g.lasers.length + 1 := by
      simp [Game.shoot, hn1]
    rw [hrej now2 _ (by rw [heq1]; exact h2), hlen1]

/-- C5 witness: a shot accepted at t=200 from a cleared cooldown, followed
by a rejected shot at t=300, yields exactly one extra laser. -/
theorem shoot_cooldown_spec_witness :
    LASER_COOLDOWN ≤ 200 - gW.last_shot ∧ (300:ℤ) - 200 < LASER_COOLDOWN ∧
    (Game.shoot 300 (Game.shoot 200 gW)).lasers.length = gW.lasers.length + 1 := by
  have h1 : LASER_COOLDOWN ≤ 200 - gW.last_shot := by norm_num [LASER_COOLDOWN, gW]
  have h2 : (300:ℤ) - 200 < LASER_COOLDOWN := by norm_num [LASER_COOLDOWN]
  exact ⟨h1, h2, (shoot_cooldown_spec gW 0 200 300).2.2 h1 h2⟩

theorem laserPhase_delta_nonneg (rs : ℕ → SplitRnd) :
    ∀ (asts : List Asteroid) (i : ℕ) (L : List Laser), 0 ≤ (laserPhase rs i L asts).2.2 := by
  intro asts
  induction asts with
  | nil => intro i L; simp [laserPhase]
  | cons a rest ih =>
    intro i L
    cases hk : killFirstHit a L with
    | none =>
      simp only [laserPhase, hk]
      exact ih (i + 1) L
    | some L2 =>
      simp only [laserPhase, hk]
      have h1 : (1:ℤ) ≤ max 1 (Int.fdiv (ASTEROID_MAX_RADIUS - a.radius) 5) := le_max_left _ _
      have h2 := ih (i + 1) L2
      linarith

theorem shipPhase_score (now : ℤ) (g : Game) : (shipPhase now g).score = g.score := by
  unfold shipPhase
  split_ifs with h
  · cases hk : firstShipHit g.ship g.asteroids <;> simp [hk]
  · rfl

theorem wavePhase_score (r : SpawnRnd) (g g2 : Game) (h : wavePhase r g = some g2) :
    g2.score = g.score := by
  unfold wavePhase at h
  split_ifs at h with hc
  · simp only [Option.map_eq_some'] at h
    obtain ⟨asts, _, rfl⟩ := h
    rfl
  · simp only [Option.some_inj] at h
    subst h
    rfl

/-- C7: across a tick the score never decreases and stays non-negative,
and each asteroid destroyed in the collision phase raises it by exactly
`max(1, (ASTEROID_MAX_RADIUS - radius) // 5)`, which is at least 1. -/
theorem score_monotone_spec :
    (∀ (inp : TickInput) (r : TickRnd) (g g2 : Game), Game.update inp r g = some g2 →
      g.score ≤ g2.score ∧ (0 ≤ g.score → 0 ≤ g2.score)) ∧
    (∀ (rs : ℕ → SplitRnd) (i : ℕ) (L : List Laser) (a : Asteroid) (rest : List Asteroid)
        (L2 : List Laser), killFirstHit a L = some L2 →
      (laserPhase rs i L (a :: rest)).2.2 =
        (laserPhase rs (i + 1) L2 rest).2.2 + max 1 (Int.fdiv (ASTEROID_MAX_RADIUS - a.radius) 5) ∧
      (1:ℤ) ≤ max 1 (Int.fdiv (ASTEROID_MAX_RADIUS - a.radius) 5)) := by
  constructor
  · intro inp r g g2 h
    unfold Game.update at h
    split_ifs at h with hc
    · simp only [Option.some_inj] at h
      subst h
      exact ⟨le_refl _, fun h0 => h0⟩
    · have hs := wavePhase_score r.spawn _ g2 h
      rw [shipPhase_score] at hs
      constructor
      · rw [hs]
        exact le_add_of_nonneg_right (laserPhase_delta_nonneg r.split _ 0 _)
      · intro h0
        rw [hs]
        exact add_nonneg h0 (laserPhase_delta_nonneg r.split _ 0 _)
  · intro rs i L a rest L2 hk
    constructor
    · simp only [laserPhase, hk]
    · exact le_max_left _ _

/-- C7 witness: the tick-monotonicity applied at a concrete tick, and the
exact award at a concrete hit. -/
theorem score_monotone_spec_witness :
    Game.update inp0 tr0 gP = some gP ∧
    (gP.score ≤ gP.score ∧ (0 ≤ gP.score → 0 ≤ gP.score)) ∧
    killFirstHit a1ex [l0] = some [l0d] ∧
    ((laserPhase rsplit0 0 [l0] (a1ex :: [])).2.2 =
       (laserPhase rsplit0 (0 + 1) [l0d] []).2.2 +
         max 1 (Int.fdiv (ASTEROID_MAX_RADIUS - a1ex.radius) 5) ∧
     (1:ℤ) ≤ max 1 (Int.fdiv (ASTEROID_MAX_RADIUS - a1ex.radius) 5)) := by
  have hup : Game.update inp0 tr0 gP = some gP := by
    simp [Game.update, gP]
  have hk : killFirstHit a1ex [l0] = some [l0d] := by
    norm_num [killFirstHit, collides, a1ex, l0, l0d]
  exact ⟨hup, score_monotone_spec.1 inp0 tr0 gP gP hup, hk,
    score_monotone_spec.2 rsplit0 0 [l0] a1ex [] [l0d] hk⟩

/-- C9: the restart key is honoured only in the game-over state; there it
rebuilds the whole session: `LIVES` lives, score 0, flags cleared, no
lasers, cooldown cleared, the ship at spawn, and a starting wave of
`ASTEROID_START_COUNT` asteroids all farther than the safe distance from
the ship. -/
theorem restart_spec (r : SpawnRnd) (g : Game) :
    (g.game_over = false → handleRestart r g = some g) ∧
    (g.game_over = true → handleRestart r g = gameInit r) ∧
    (∀ g2, gameInit r = some g2 →
      g2.lives = LIVES ∧ g2.score = 0 ∧ g2.paused = false ∧ g2.game_over = false ∧
      g2.lasers = [] ∧ g2.ship = Ship.init ∧ g2.last_shot = 0 ∧
      g2.asteroids.length = ASTEROID_START_COUNT ∧
      ∀ a ∈ g2.asteroids, 200 < Real.sqrt ((a.x - g2.ship.x) ^ 2 + (a.y - g2.ship.y) ^ 2)) := by
  refine ⟨?_, ?_, ?_⟩
  · intro h
    simp [handleRestart, h]
  · intro h
    simp [handleRestart, h]
  · intro g2 h
    unfold gameInit at h
    simp only [Option.map_eq_some'] at h
    obtain ⟨asts, hasts, rfl⟩ := h
    obtain ⟨hlen, hfar⟩ := spawnLoop_spec Ship.init r _ 0 asts hasts
    exact ⟨rfl, rfl, rfl, rfl, rfl, rfl, rfl, hlen, hfar⟩

theorem gameInit_eval : gameInit r0 = some gInit0 := by
  simp only [gameInit, spawnWave, ASTEROID_START_COUNT, spawnLoop_r0, Option.map_some',
    gInit0, LIVES]

/-- C9 witness: restart honoured at a concrete game-over state, with the
rebuilt session evaluated. -/
theorem restart_spec_witness :
    gO.game_over = true ∧ handleRestart r0 gO = gameInit r0 ∧ gameInit r0 = some gInit0 ∧
    (gInit0.lives = LIVES ∧ gInit0.score = 0 ∧ gInit0.paused = false ∧
     gInit0.game_over = false ∧ gInit0.lasers = [] ∧ gInit0.ship = Ship.init ∧
     gInit0.last_shot = 0 ∧ gInit0.asteroids.length = ASTEROID_START_COUNT ∧
     ∀ a ∈ gInit0.asteroids,
       200 < Real.sqrt ((a.x - gInit0.ship.x) ^ 2 + (a.y - gInit0.ship.y) ^ 2)) :=
  ⟨rfl, (restart_spec r0 gO).2.1 rfl, gameInit_eval,
    (restart_spec r0 gO).2.2 gInit0 gameInit_eval⟩

/-- C10: while the paused or the game-over flag is set, a tick update
returns the entire simulation state unchanged — ship, collections, score,
lives and flags included. -/
theorem paused_update_frozen (inp : TickInput) (r : TickRnd) (g : Game) :
    g.paused = true ∨ g.game_over = true → Game.update inp r g = some g := by
  intro h
  have hc : (g.game_over || g.paused) = true := by
    rcases h with h | h <;> simp [h]
  simp [Game.update, hc]

/-- C10 witness: a concrete paused session passes through a tick intact. -/
theorem paused_update_frozen_witness :
    gP.paused = true ∧ Game.update inp0 tr0 gP = some gP :=
  ⟨rfl, paused_update_frozen inp0 tr0 gP (Or.inl rfl)⟩
